import Mathlib

/-!
Verification of the diffusion repository's core numerics: the reverse-sampling
loop (`DiffusionManager.sampling`), forward diffusion and the VE ancestral
sampling step (`SDEManager`), the beta schedule space (`BetaSpace`) with its
gather primitive, and the EMA optimizer wrapper.

Tensors are embedded as lists of rationals: a batched tensor is a `List` of
batch elements, each batch element a flat `List ℚ` of its entries.  Randomness
(noise draws, random timesteps) is passed in explicitly as arguments.
-/

/-- Python `range(start, stop, step)` as a list of integers.  An empty list
when the range is empty (in particular `range(a, b)` with `a ≥ b` and the
implicit step `+1`). -/
def pythonRange (start stop step : Int) : List Int :=
  if 0 < step then
    (List.range ((stop - start + step - 1) / step).toNat).map (fun k => start + step * k)
  else if step < 0 then
    (List.range ((start - stop + (-step) - 1) / (-step)).toNat).map (fun k => start + step * k)
  else []

/-- Modelled from the spec: `TimedSample` / `DiffusionData` (module
`diffusion.data` is not under `src/`): a batched sample `x`, an integer
timestep vector `t`, and an optional condition tensor (default `None`). -/
structure DiffusionData (α : Type) where
  x : List α
  t : List Int
  condition : Option (List ℚ)
deriving Repr, DecidableEq

/-- `DiffusionManager.sampling` (src/diffusion/managers/diffusion.py):
resolves the default range `range(self.time_steps, 1)` when no
`sampling_range` is given, then folds `sampling_step` over the range,
building `DiffusionData(imgs, torch.full((num_images,), i), condition)`
each iteration, and finally unbinds the batch (`[img for img in imgs]`). -/
def DiffusionManager.sampling {α : Type} (sampling_step : DiffusionData α → Int → List α)
    (time_steps : Nat) (num_images : Nat) (x_t : List α)
    (condition : Option (List ℚ)) (sampling_range : Option (List Int)) : List α :=
  let rng : List Int := sampling_range.getD (pythonRange (time_steps : Int) 1 1)
  rng.foldl (fun imgs i => sampling_step ⟨imgs, List.replicate num_images i, condition⟩ i) x_t

example : pythonRange 10 1 1 = [] := by decide
example : pythonRange 10 0 (-1) = [10, 9, 8, 7, 6, 5, 4, 3, 2, 1] := by decide
example : pythonRange 0 1 1 = [0] := by decide

/-- `SDEManager.forward_diffusion` (src/diffusion/managers/sde.py): `t` is the
given timestep vector, or the fresh uniform draw `randT` (the
`torch.randint(0, time_steps, ...)` result, passed in explicitly) when `None`;
`z` is the fresh standard-normal draw; `(mean, std) = sde.marginal_prob(data, t)`
with `std` one scalar per batch element; `x = mean + std * z`,
`noise = z / std`, both broadcast over the batch axis; returns
`(DiffusionData(x, t), noise)`. -/
def SDEManager.forward_diffusion
    (marginal_prob : List (List ℚ) → List Int → List (List ℚ) × List ℚ)
    (time_steps : Nat)
    (data : List (List ℚ)) (condition : Option (List ℚ))
    (t? : Option (List Int)) (randT : List Int) (z : List (List ℚ)) :
    DiffusionData (List ℚ) × List (List ℚ) :=
  let t := match t? with
    | some tv => tv
    | none => randT
  let ms := marginal_prob data t
  let x := List.zipWith (fun p s => List.zipWith (fun m zv => m + s * zv) p.1 p.2) (ms.1.zip z) ms.2
  let noise := List.zipWith (fun zi s => zi.map (fun zv => zv / s)) z ms.2
  (⟨x, t, none⟩, noise)

/-- Truncation toward zero, the semantics of torch's `.long()` cast. -/
def ratTrunc (q : ℚ) : Int :=
  if 0 ≤ q then ⌊q⌋ else ⌈q⌉

/-- torch 1-D tensor indexing with Python negative-index wrap-around
(index `-1` reads the last element). -/
def torchIndex (l : List ℚ) (i : Int) : ℚ :=
  if i < 0 then l.getD (l.length - (-i).toNat) 0 else l.getD i.toNat 0

/-- Modelled from the spec: the variance-exploding SDE (`VESDE`) of the
`diffusion.sde` module, which is not under `src/`.  It is parametrized by
`(sigma_min, sigma_max, N)`, exposes the nominal terminal time `T` (default 1)
and the geometric noise scales `discrete_sigmas` of length `N`; the sigma
values themselves are irrelevant to the claims, so they are carried as a
field. -/
structure VESDE where
  sigma_min : ℚ
  sigma_max : ℚ
  N : Nat
  discrete_sigmas : List ℚ
deriving Repr, DecidableEq

/-- Modelled from the spec: the nominal terminal time of the SDE, default 1. -/
def VESDE.T (_ : VESDE) : ℚ := 1

/-- The timestep computation `(data.t * (N - 1) / T).long()` of the VESDE
branch of `SDEManager.sampling_step`, for one batch entry. -/
def VESDE.timestep_of (sde : VESDE) (tj : Int) : Int :=
  ratTrunc ((tj : ℚ) * ((sde.N : ℚ) - 1) / sde.T)

/-- The VESDE branch of `SDEManager.sampling_step`
(src/diffusion/managers/sde.py) is embedded with one definition per local of
the source: `ve_timestep`, `ve_sigma`, `ve_adjacent_sigma`, `ve_coef`,
`ve_x_mean`, `ve_std`, and finally `sampling_step_ve`.  The score
`self.forward(data)` is abstracted as `score_of`, torch's `sqrt` as `sqrtFn`.
This one is `timestep = (data.t * (N - 1) / T).long()`. -/
def SDEManager.ve_timestep (sde : VESDE) (data : DiffusionData (List ℚ)) : List Int :=
  data.t.map sde.timestep_of

/-- `sigma = self.sde.discrete_sigmas[timestep]`. -/
def SDEManager.ve_sigma (sde : VESDE) (data : DiffusionData (List ℚ)) : List ℚ :=
  (SDEManager.ve_timestep sde data).map (fun k => torchIndex sde.discrete_sigmas k)

/-- `adjacent_sigma = torch.where(timestep == 0, zeros, discrete_sigmas[timestep - 1])`:
both branches are evaluated, with Python wrap-around on index `-1`, and `where`
selects zero at `timestep == 0`. -/
def SDEManager.ve_adjacent_sigma (sde : VESDE) (data : DiffusionData (List ℚ)) : List ℚ :=
  (SDEManager.ve_timestep sde data).map
    (fun k => if k = 0 then 0 else torchIndex sde.discrete_sigmas (k - 1))

/-- `sigma ** 2 - adjacent_sigma ** 2`, the broadcast scalar per batch entry. -/
def SDEManager.ve_coef (sde : VESDE) (data : DiffusionData (List ℚ)) : List ℚ :=
  List.zipWith (fun s a => s ^ 2 - a ^ 2) (SDEManager.ve_sigma sde data)
    (SDEManager.ve_adjacent_sigma sde data)

/-- `x_mean = data.x + score * (sigma ** 2 - adjacent_sigma ** 2)[:, None, None, None]`. -/
def SDEManager.ve_x_mean (sde : VESDE) (score_of : DiffusionData (List ℚ) → List (List ℚ))
    (data : DiffusionData (List ℚ)) : List (List ℚ) :=
  List.zipWith (fun p c => List.zipWith (fun xv sv => xv + sv * c) p.1 p.2)
    (data.x.zip (score_of data)) (SDEManager.ve_coef sde data)

/-- `std = torch.sqrt((adjacent_sigma ** 2 * (sigma ** 2 - adjacent_sigma ** 2)) / (sigma ** 2))`. -/
def SDEManager.ve_std (sde : VESDE) (data : DiffusionData (List ℚ)) (sqrtFn : ℚ → ℚ) :
    List ℚ :=
  List.zipWith (fun a s => sqrtFn ((a ^ 2 * (s ^ 2 - a ^ 2)) / s ^ 2))
    (SDEManager.ve_adjacent_sigma sde data) (SDEManager.ve_sigma sde data)

/-- `y = x_mean + std[:, None, None, None] * noise` with fresh normal noise. -/
def SDEManager.sampling_step_ve (sde : VESDE)
    (score_of : DiffusionData (List ℚ) → List (List ℚ))
    (data : DiffusionData (List ℚ)) (fresh_noise : List (List ℚ)) (sqrtFn : ℚ → ℚ) :
    List (List ℚ) :=
  List.zipWith (fun p s => List.zipWith (fun mv nv => mv + s * nv) p.1 p.2)
    ((SDEManager.ve_x_mean sde score_of data).zip fresh_noise)
    (SDEManager.ve_std sde data sqrtFn)

/-- The claim's `sigma = discrete_sigmas[timestep]`. -/
def VESDE.sigma_at (sde : VESDE) (ts : Int) : ℚ :=
  sde.discrete_sigmas.getD ts.toNat 0

/-- The claim's `adjacent_sigma = 0 if timestep == 0 else discrete_sigmas[timestep - 1]`. -/
def VESDE.adjacent_sigma_at (sde : VESDE) (ts : Int) : ℚ :=
  if ts = 0 then 0 else sde.discrete_sigmas.getD (ts - 1).toNat 0

/-- Running product along a list, mirroring `torch.cumprod(dim=0)`:
`cumprod [a, b, c] = [a, a*b, a*b*c]`. -/
def cumprod (l : List ℚ) : List ℚ :=
  (l.scanl (fun a b => a * b) 1).drop 1

/-- `BetaSpace` (src/diffusion/scheduling/space.py): the scheduled betas. -/
structure BetaSpace where
  betas : List ℚ
deriving Repr, DecidableEq

/-- `BetaSpace.alphas`: `1 - betas`. -/
def BetaSpace.alphas (s : BetaSpace) : List ℚ :=
  s.betas.map (fun b => 1 - b)

/-- `BetaSpace.alphas_cumprod`: `alphas.cumprod(dim=0)`. -/
def BetaSpace.alphas_cumprod (s : BetaSpace) : List ℚ :=
  cumprod s.alphas

/-- `BetaSpace.alphas_cumprod_prev`: `F.pad(alphas_cumprod[:-1], (1, 0), value=1.0)`. -/
def BetaSpace.alphas_cumprod_prev (s : BetaSpace) : List ℚ :=
  1 :: s.alphas_cumprod.dropLast

/-- `BetaSpace.posterior_variance`:
`betas * (1 - alphas_cumprod_prev) / (1 - alphas_cumprod)`, elementwise. -/
def BetaSpace.posterior_variance (s : BetaSpace) : List ℚ :=
  List.zipWith (fun p a => p.1 * (1 - p.2) / (1 - a)) (s.betas.zip s.alphas_cumprod_prev)
    s.alphas_cumprod

/-- `_get_index_from_list(vals, t, x_shape)` (src/diffusion/scheduling/space.py):
`vals.gather(-1, t).reshape(batch_size, *((1,) * (len(x_shape) - 1)))`.
The result is the output shape paired with the flat gathered data. -/
def _get_index_from_list (vals : List ℚ) (t : List Nat) (x_shape : List Nat) :
    List Nat × List ℚ :=
  (t.length :: List.replicate (x_shape.length - 1) 1, t.map (fun i => vals.getD i 0))

/-- `BetaSpace.sample_betas`: `_get_index_from_list(betas, t, shape)`. -/
def BetaSpace.sample_betas (s : BetaSpace) (t : List Nat) (shape : List Nat) :
    List Nat × List ℚ :=
  _get_index_from_list s.betas t shape

/-- Modelled from the spec: the three interchangeable SDE variants of the
`diffusion.sde` module (not under `src/`); `SubVPSDE` and `VESDE` are not
subclasses of `VPSDE`, so only the `vp` tag satisfies
`isinstance(sde, VPSDE)`. -/
inductive SDEVariant
  | vp
  | subvp
  | ve
deriving Repr, DecidableEq

/-- `SDEManager.__init__` (src/diffusion/managers/sde.py): stores
`(sde, time_steps, beta_space)` and raises
`ValueError("Beta space is required for VPSDE.")` — the spec's
`ConfigurationError` — when `isinstance(sde, VPSDE)` and `beta_space is None`. -/
def SDEManager.init (sde : SDEVariant) (time_steps : Nat) (beta_space : Option BetaSpace) :
    Except String (SDEVariant × Nat × Option BetaSpace) :=
  match sde, beta_space with
  | SDEVariant.vp, none => Except.error "Beta space is required for VPSDE."
  | _, _ => Except.ok (sde, time_steps, beta_space)

/-- A torch parameter: a data payload and the trainability flag. -/
structure PParam where
  data : ℚ
  requires_grad : Bool
deriving Repr, DecidableEq, Inhabited

/-- `EMAOptimizer` state (src/diffusion/optim/ema.py): the decay, the wrapped
model's parameters, and the shadow (EMA-copy) parameters. -/
structure EMAOptimizer where
  ema_decay : ℚ
  model : List PParam
  ema_model : List PParam
deriving Repr, DecidableEq

/-- `EMAOptimizer.__init__`: deep-copies the model parameters into the shadow
set and sets `requires_grad = False` on every shadow parameter. -/
def EMAOptimizer.init (model : List PParam) (ema_decay : ℚ) : EMAOptimizer :=
  ⟨ema_decay, model, model.map (fun p => ⟨p.data, false⟩)⟩

/-- The loop body of `EMAOptimizer.update_ema_parameters`: iterate
`zip(ema_model.parameters(), model.parameters())` and set
`ema.data = decay * ema.data + (1 - decay) * param.data`; parameters beyond
the shorter list are untouched, and flags are never written. -/
def emaUpdatePairs (decay : ℚ) : List PParam → List PParam → List PParam
  | e :: es, p :: ps =>
    ⟨decay * e.data + (1 - decay) * p.data, e.requires_grad⟩ :: emaUpdatePairs decay es ps
  | es, _ => es

/-- `EMAOptimizer.update_ema_parameters`. -/
def EMAOptimizer.update_ema_parameters (o : EMAOptimizer) : EMAOptimizer :=
  { o with ema_model := emaUpdatePairs o.ema_decay o.ema_model o.model }

/-- The base optimizer's `step` writes new data into the model parameters in
place; only `.data` is assigned, never the flags. -/
def applyDataPairs : List PParam → List ℚ → List PParam
  | p :: ps, d :: ds => ⟨d, p.requires_grad⟩ :: applyDataPairs ps ds
  | ps, _ => ps

/-- `EMAOptimizer.step`: `loss = base_optimizer.step(closure)` (the base step
is abstracted as a map from the current parameter data to the new data and an
optional loss), then `update_ema_parameters()`, and the base step's return
value is passed through. -/
def EMAOptimizer.step (base_step : List ℚ → List ℚ × Option ℚ) (o : EMAOptimizer) :
    EMAOptimizer × Option ℚ :=
  let r := base_step (o.model.map PParam.data)
  let stepped : EMAOptimizer := { o with model := applyDataPairs o.model r.1 }
  (stepped.update_ema_parameters, r.2)

/-- The loop body of `EMAOptimizer.swap_parameters`: for each pair of
`zip(ema_model.parameters(), model.parameters())`, exchange the `.data`
payloads in place (flags stay with their holders). -/
def swapPairs : List PParam → List PParam → List PParam × List PParam
  | p :: ps, e :: es =>
    let r := swapPairs ps es
    (⟨e.data, p.requires_grad⟩ :: r.1, ⟨p.data, e.requires_grad⟩ :: r.2)
  | ps, es => (ps, es)

/-- `EMAOptimizer.swap_parameters`. -/
def EMAOptimizer.swap_parameters (o : EMAOptimizer) : EMAOptimizer :=
  let r := swapPairs o.model o.ema_model
  { o with model := r.1, ema_model := r.2 }

/-- `EMAOptimizer.restore_model_parameters`: calls `swap_parameters`. -/
def EMAOptimizer.restore_model_parameters (o : EMAOptimizer) : EMAOptimizer :=
  o.swap_parameters

/-- `EMAParameterContext.__enter__`: swaps on entry. -/
def EMAParameterContext.enter (o : EMAOptimizer) : EMAOptimizer :=
  o.swap_parameters

/-- `EMAParameterContext.__exit__`: restores on exit. -/
def EMAParameterContext.exit (o : EMAOptimizer) : EMAOptimizer :=
  o.restore_model_parameters

theorem getD_zipWith {α β γ : Type} (f : α → β → γ) (a : List α) (b : List β)
    (i : Nat) (da : α) (db : β) (dc : γ) (ha : i < a.length) (hb : i < b.length) :
    (List.zipWith f a b).getD i dc = f (a.getD i da) (b.getD i db) := by
  induction a generalizing b i with
  | nil => simp at ha
  | cons x xs ih =>
    cases b with
    | nil => simp at hb
    | cons y ys =>
      cases i with
      | zero => rfl
      | succ n =>
        simp only [List.zipWith_cons_cons, List.getD_cons_succ]
        exact ih ys n (by simpa using ha) (by simpa using hb)

theorem getD_map' {α β : Type} (f : α → β) (l : List α) (i : Nat) (da : α) (db : β)
    (h : i < l.length) : (l.map f).getD i db = f (l.getD i da) := by
  induction l generalizing i with
  | nil => simp at h
  | cons x xs ih =>
    cases i with
    | zero => rfl
    | succ n =>
      simp only [List.map_cons, List.getD_cons_succ]
      exact ih n (by simpa using h)

theorem getD_zip {α β : Type} (a : List α) (b : List β) (i : Nat) (da : α) (db : β)
    (ha : i < a.length) (hb : i < b.length) :
    (a.zip b).getD i (da, db) = (a.getD i da, b.getD i db) :=
  getD_zipWith Prod.mk a b i da db (da, db) ha hb

theorem getD_replicate' {α : Type} (x d : α) (n i : Nat) (h : i < n) :
    (List.replicate n x).getD i d = x := by
  induction n generalizing i with
  | zero => omega
  | succ m ih =>
    cases i with
    | zero => rfl
    | succ k =>
      simp only [List.replicate_succ, List.getD_cons_succ]
      exact ih k (by omega)

theorem swapPairs_swapPairs : ∀ (ps es : List PParam),
    swapPairs (swapPairs ps es).1 (swapPairs ps es).2 = (ps, es) := by
  intro ps
  induction ps with
  | nil => intro es; cases es <;> rfl
  | cons p ps ih =>
    intro es
    cases es with
    | nil => rfl
    | cons e es => simp [swapPairs, ih]

/-- C7: `swap_parameters` is an involution: two consecutive swaps restore both
the trainable model's parameters and the shadow parameters exactly. -/
theorem swap_parameters_involution (o : EMAOptimizer) :
    o.swap_parameters.swap_parameters = o := by
  cases o with
  | mk d m e => simp [EMAOptimizer.swap_parameters, swapPairs_swapPairs]

/-- C8: constructing the SDE manager with the VP variant and no beta space
fails with the configuration error, while VP with a beta space and every
non-VP variant (with or without a beta space) succeed. -/
theorem sde_manager_init_requires_beta_space_for_vp :
    (∀ ts : Nat, SDEManager.init SDEVariant.vp ts none
        = Except.error "Beta space is required for VPSDE.") ∧
    (∀ (ts : Nat) (bs : BetaSpace), SDEManager.init SDEVariant.vp ts (some bs)
        = Except.ok (SDEVariant.vp, ts, some bs)) ∧
    (∀ (ts : Nat) (bs? : Option BetaSpace),
        SDEManager.init SDEVariant.subvp ts bs? = Except.ok (SDEVariant.subvp, ts, bs?) ∧
        SDEManager.init SDEVariant.ve ts bs? = Except.ok (SDEVariant.ve, ts, bs?)) := by
  refine ⟨fun ts => rfl, fun ts bs => rfl, fun ts bs? => ⟨?_, ?_⟩⟩ <;> cases bs? <;> rfl

theorem emaUpdatePairs_map_rg (d : ℚ) : ∀ (es ps : List PParam),
    (emaUpdatePairs d es ps).map PParam.requires_grad = es.map PParam.requires_grad := by
  intro es
  induction es with
  | nil => intro ps; cases ps <;> rfl
  | cons e es ih =>
    intro ps
    cases ps with
    | nil => rfl
    | cons p ps => simp [emaUpdatePairs, ih]

theorem applyDataPairs_map_rg : ∀ (ps : List PParam) (ds : List ℚ),
    (applyDataPairs ps ds).map PParam.requires_grad = ps.map PParam.requires_grad := by
  intro ps
  induction ps with
  | nil => intro ds; cases ds <;> rfl
  | cons p ps ih =>
    intro ds
    cases ds with
    | nil => rfl
    | cons x ds => simp [applyDataPairs, ih]

theorem swapPairs_map_rg : ∀ (ps es : List PParam),
    (swapPairs ps es).1.map PParam.requires_grad = ps.map PParam.requires_grad ∧
    (swapPairs ps es).2.map PParam.requires_grad = es.map PParam.requires_grad := by
  intro ps
  induction ps with
  | nil => intro es; cases es <;> exact ⟨rfl, rfl⟩
  | cons p ps ih =>
    intro es
    cases es with
    | nil => exact ⟨rfl, rfl⟩
    | cons e es => simp [swapPairs, (ih es).1, (ih es).2]

/-- C10: every shadow parameter is constructed with `requires_grad = False`,
and `update_ema_parameters`, `step`, `swap_parameters`, and the scoped
evaluation guard's enter/exit all preserve the trainability flags of both the
model and the shadow parameters, mutating only the data. -/
theorem ema_shadow_requires_grad_invariant :
    (∀ (model : List PParam) (d : ℚ),
        (EMAOptimizer.init model d).ema_model.map PParam.requires_grad
          = List.replicate model.length false) ∧
    (∀ o : EMAOptimizer,
        o.update_ema_parameters.ema_model.map PParam.requires_grad
            = o.ema_model.map PParam.requires_grad ∧
        o.update_ema_parameters.model = o.model) ∧
    (∀ (base_step : List ℚ → List ℚ × Option ℚ) (o : EMAOptimizer),
        (o.step base_step).1.ema_model.map PParam.requires_grad
            = o.ema_model.map PParam.requires_grad ∧
        (o.step base_step).1.model.map PParam.requires_grad
            = o.model.map PParam.requires_grad) ∧
    (∀ o : EMAOptimizer,
        o.swap_parameters.ema_model.map PParam.requires_grad
            = o.ema_model.map PParam.requires_grad ∧
        o.swap_parameters.model.map PParam.requires_grad
            = o.model.map PParam.requires_grad) ∧
    (∀ o : EMAOptimizer,
        (EMAParameterContext.enter o).ema_model.map PParam.requires_grad
            = o.ema_model.map PParam.requires_grad ∧
        (EMAParameterContext.exit o).ema_model.map PParam.requires_grad
            = o.ema_model.map PParam.requires_grad) := by
  refine ⟨?_, ?_, ?_, ?_, ?_⟩
  · intro model d
    induction model with
    | nil => rfl
    | cons p ps ih =>
      simp only [EMAOptimizer.init, List.map_cons, List.map_map] at ih ⊢
      simp only [List.length_cons, List.replicate_succ]
      exact congrArg (List.cons false) ih
  · intro o
    exact ⟨emaUpdatePairs_map_rg o.ema_decay o.ema_model o.model, rfl⟩
  · intro f o
    refine ⟨?_, ?_⟩
    · simpa [EMAOptimizer.step, EMAOptimizer.update_ema_parameters] using
        emaUpdatePairs_map_rg o.ema_decay o.ema_model
          (applyDataPairs o.model (f (o.model.map PParam.data)).1)
    · simpa [EMAOptimizer.step, EMAOptimizer.update_ema_parameters] using
        applyDataPairs_map_rg o.model (f (o.model.map PParam.data)).1
  · intro o
    exact ⟨(swapPairs_map_rg o.model o.ema_model).2, (swapPairs_map_rg o.model o.ema_model).1⟩
  · intro o
    exact ⟨(swapPairs_map_rg o.model o.ema_model).2, (swapPairs_map_rg o.model o.ema_model).2⟩

theorem scanl_eq_cons (f : ℚ → ℚ → ℚ) (i : ℚ) (l : List ℚ) :
    ∃ r, List.scanl f i l = i :: r := by
  cases l <;> exact ⟨_, rfl⟩

/-- C9: for betas all strictly inside (0,1), `alphas_cumprod_prev` starts at 1,
the first denominator `1 - alphas_cumprod[0]` equals `betas[0]` (nonzero), and
the first entry of `posterior_variance` is exactly 0. -/
theorem posterior_variance_first_entry_zero (s : BetaSpace) (hne : s.betas ≠ [])
    (hb : ∀ b ∈ s.betas, 0 < b ∧ b < 1) :
    s.alphas_cumprod_prev.headD 0 = 1 ∧
    1 - s.alphas_cumprod.headD 0 = s.betas.headD 0 ∧
    s.betas.headD 0 ≠ 0 ∧
    s.posterior_variance.headD 0 = 0 := by
  obtain ⟨betas⟩ := s
  cases betas with
  | nil => exact absurd rfl hne
  | cons b bs =>
    have hb0 : 0 < b := (hb b (List.mem_cons_self b bs)).1
    obtain ⟨r, hr⟩ : ∃ r, BetaSpace.alphas_cumprod ⟨b :: bs⟩ = (1 * (1 - b)) :: r := by
      simp only [BetaSpace.alphas_cumprod, BetaSpace.alphas, cumprod, List.map_cons,
        List.scanl_cons, List.drop_succ_cons, List.drop_zero]
      exact scanl_eq_cons _ _ _
    refine ⟨rfl, ?_, ne_of_gt hb0, ?_⟩
    · rw [hr]
      simp only [List.headD_cons]
      ring
    · simp only [BetaSpace.posterior_variance, BetaSpace.alphas_cumprod_prev, hr,
        List.zip_cons_cons, List.zipWith_cons_cons, List.headD_cons]
      norm_num

/-- C9 witness. -/
theorem posterior_variance_first_entry_zero_w :
    (BetaSpace.mk [1/2, 1/3]).posterior_variance.headD 0 = 0 :=
  (posterior_variance_first_entry_zero (BetaSpace.mk [1/2, 1/3]) (by simp)
    (by norm_num [List.forall_mem_cons])).2.2.2

/-- C1 (the code as written): with no explicit `sampling_range`, the default
`range(self.time_steps, 1)` carries the implicit step `+1` and is therefore
empty for every positive `time_steps`, so the sampling loop performs zero
steps and returns the seed unchanged — here evaluated at `time_steps = 10`,
where the spec instead requires the ten descending steps `10, 9, ..., 1`. -/
theorem default_sampling_range_runs_zero_steps :
    (∀ ts : Nat, pythonRange ((ts : Int) + 1) 1 1 = []) ∧
    (∀ (α : Type) (sampling_step : DiffusionData α → Int → List α) (num_images : Nat)
        (x_t : List α) (condition : Option (List ℚ)),
      DiffusionManager.sampling sampling_step 10 num_images x_t condition none = x_t) := by
  constructor
  · intro ts
    have h1 : (1 - ((ts : Int) + 1) + 1 - 1) = -(ts : Int) := by ring
    simp only [pythonRange, if_pos Int.one_pos, h1, Int.ediv_one]
    have h2 : (-(ts : Int)).toNat = 0 := by omega
    simp [h2]
  · intro α f n x c
    rfl

theorem sampling_foldl_map_shape {α : Type} (shape : α → List Nat)
    (f : DiffusionData α → Int → List α)
    (h : ∀ (d : DiffusionData α) (i : Int), (f d i).map shape = d.x.map shape)
    (num : Nat) (c : Option (List ℚ)) :
    ∀ (rng : List Int) (imgs : List α),
      ((rng.foldl (fun im i => f ⟨im, List.replicate num i, c⟩ i) imgs).map shape)
        = imgs.map shape := by
  intro rng
  induction rng with
  | nil => intro imgs; rfl
  | cons i rest ih =>
    intro imgs
    simp only [List.foldl_cons]
    rw [ih, h]

/-- C2 counterexample: `sampling` with `num_images = 4`, a seed of 5 batch
elements, and the explicit descending range `range(10, 0, -1)` returns 5
samples, not 4 — the claim's "length exactly num_samples" is false. -/
theorem sampling_length_four_cex :
    (DiffusionManager.sampling (fun (d : DiffusionData ℚ) (_ : Int) => d.x) 10 4
        [(0 : ℚ), 1, 2, 3, 4] none (some (pythonRange 10 0 (-1)))).length ≠ 4 := by
  decide

/-- C2 (amended): `sampling` returns one sample per batch element of the final
tensor; when every sampling step preserves the per-element shapes of its
input batch, the output's shapes equal the seed noise's per-element shapes,
the output length equals the seed's batch size, and hence equals
`num_images` exactly when the seed carries `num_images` batch elements. -/
theorem sampling_length_eq_seed_batch {α : Type} (shape : α → List Nat)
    (sampling_step : DiffusionData α → Int → List α)
    (h : ∀ (d : DiffusionData α) (i : Int), (sampling_step d i).map shape = d.x.map shape)
    (time_steps num_images : Nat) (x_t : List α) (condition : Option (List ℚ))
    (sampling_range : Option (List Int)) :
    (DiffusionManager.sampling sampling_step time_steps num_images x_t condition
        sampling_range).map shape = x_t.map shape ∧
    (DiffusionManager.sampling sampling_step time_steps num_images x_t condition
        sampling_range).length = x_t.length ∧
    (x_t.length = num_images →
      (DiffusionManager.sampling sampling_step time_steps num_images x_t condition
          sampling_range).length = num_images) := by
  have hmap := sampling_foldl_map_shape shape sampling_step h num_images condition
    (sampling_range.getD (pythonRange (time_steps : Int) 1 1)) x_t
  have hlen : (DiffusionManager.sampling sampling_step time_steps num_images x_t condition
      sampling_range).length = x_t.length := by
    have := congrArg List.length hmap
    simpa [DiffusionManager.sampling] using this
  exact ⟨hmap, hlen, fun he => he ▸ hlen⟩

/-- C2 witness. -/
theorem sampling_length_eq_seed_batch_w :
    (DiffusionManager.sampling (fun (d : DiffusionData ℚ) (_ : Int) => d.x) 3 2
        [(1 : ℚ), 2] none none).length = 2 :=
  (sampling_length_eq_seed_batch (fun _ => ([] : List Nat)) (fun d _ => d.x)
    (fun _ _ => rfl) 3 2 [(1 : ℚ), 2] none none).2.2 rfl

/-- C5 counterexample: for the empty target shape, the gather primitive's
output has rank 1 (`reshape(batch_size)`), not rank 0 as the claim's "rank
equals the rank of the target shape" requires. -/
theorem get_index_from_list_rank_cex :
    (_get_index_from_list [(1 : ℚ), 2] [0] []).1.length ≠ ([] : List Nat).length := by
  decide

/-- C5 (amended): for every 1-D values list, valid index vector `t`, and
NONEMPTY target shape, the gather primitive's output rank equals the target
shape's rank, the leading axis is the batch size with all trailing axes
singleton, and element `i` equals `values[t[i]]`; for the empty target shape
the output instead has rank 1. -/
theorem get_index_from_list_spec (vals : List ℚ) (t : List Nat) (x_shape : List Nat)
    (hs : x_shape ≠ []) (ht : ∀ j ∈ t, j < vals.length) (i : Nat) (hi : i < t.length) :
    (_get_index_from_list vals t x_shape).1.length = x_shape.length ∧
    (_get_index_from_list vals t x_shape).1.headD 0 = t.length ∧
    (∀ v ∈ (_get_index_from_list vals t x_shape).1.tail, v = 1) ∧
    (_get_index_from_list vals t x_shape).2.length = t.length ∧
    (_get_index_from_list vals t x_shape).2.getD i 0 = vals.getD (t.getD i 0) 0 := by
  refine ⟨?_, rfl, ?_, ?_, ?_⟩
  · have hpos : 0 < x_shape.length := List.length_pos.mpr hs
    simp only [_get_index_from_list, List.length_cons, List.length_replicate]
    omega
  · intro v hv
    exact List.eq_of_mem_replicate (by simpa [_get_index_from_list] using hv)
  · simp [_get_index_from_list]
  · exact getD_map' (fun j => vals.getD j 0) t i 0 0 hi

/-- C5 witness. -/
theorem get_index_from_list_spec_w :
    (_get_index_from_list [(10 : ℚ), 20, 30] [2, 0] [4, 5, 6]).1.length = 3 ∧
    (_get_index_from_list [(10 : ℚ), 20, 30] [2, 0] [4, 5, 6]).2.getD 1 0 = 10 := by
  have h := get_index_from_list_spec [(10 : ℚ), 20, 30] [2, 0] [4, 5, 6] (by simp)
    (by decide) 1 (by decide)
  exact ⟨h.1, h.2.2.2.2⟩

theorem applyDataPairs_length : ∀ (ps : List PParam) (ds : List ℚ),
    (applyDataPairs ps ds).length = ps.length := by
  intro ps
  induction ps with
  | nil => intro ds; cases ds <;> rfl
  | cons p ps ih =>
    intro ds
    cases ds with
    | nil => rfl
    | cons d ds => simp [applyDataPairs, ih]

theorem emaUpdatePairs_getD (d : ℚ) : ∀ (es ps : List PParam) (j : Nat),
    j < es.length → j < ps.length →
    (emaUpdatePairs d es ps).getD j default
      = ⟨d * (es.getD j default).data + (1 - d) * (ps.getD j default).data,
         (es.getD j default).requires_grad⟩ := by
  intro es
  induction es with
  | nil => intro ps j h1 h2; simp at h1
  | cons e es ih =>
    intro ps j h1 h2
    cases ps with
    | nil => simp at h2
    | cons p ps =>
      cases j with
      | zero => rfl
      | succ n =>
        simp only [emaUpdatePairs, List.getD_cons_succ]
        exact ih ps n (by simpa using h1) (by simpa using h2)

/-- C6: one `step()` delegates to the base optimizer's step and returns its
return value unchanged, and afterwards every shadow parameter equals
`decay * shadow_old + (1 - decay) * param` computed from the post-step
parameter values. -/
theorem ema_step_spec (base_step : List ℚ → List ℚ × Option ℚ) (o : EMAOptimizer)
    (hd0 : 0 < o.ema_decay) (hd1 : o.ema_decay < 1)
    (hlen : o.model.length = o.ema_model.length) (j : Nat) (hj : j < o.ema_model.length) :
    (o.step base_step).2 = (base_step (o.model.map PParam.data)).2 ∧
    ((o.step base_step).1.ema_model.getD j default).data
      = o.ema_decay * (o.ema_model.getD j default).data
        + (1 - o.ema_decay) * ((o.step base_step).1.model.getD j default).data := by
  refine ⟨rfl, ?_⟩
  have hlen2 : j < (applyDataPairs o.model (base_step (o.model.map PParam.data)).1).length := by
    rw [applyDataPairs_length]
    omega
  have h := emaUpdatePairs_getD o.ema_decay o.ema_model
    (applyDataPairs o.model (base_step (o.model.map PParam.data)).1) j hj hlen2
  rw [show (o.step base_step).1.ema_model
      = emaUpdatePairs o.ema_decay o.ema_model
          (applyDataPairs o.model (base_step (o.model.map PParam.data)).1) from rfl, h]
  rfl

/-- C6 witness. -/
theorem ema_step_spec_w :
    ((EMAOptimizer.init [⟨1, true⟩] (1/2)).step
        (fun ds => (ds.map (fun v => v + 1), some 5))).2 = some 5 ∧
    (((EMAOptimizer.init [⟨1, true⟩] (1/2)).step
        (fun ds => (ds.map (fun v => v + 1), some 5))).1.ema_model.getD 0 default).data
      = 3/2 := by
  have h := ema_step_spec (fun ds => (ds.map (fun v => v + 1), some 5))
    (EMAOptimizer.init [⟨1, true⟩] (1/2)) (by norm_num [EMAOptimizer.init])
    (by norm_num [EMAOptimizer.init]) rfl 0 (by simp [EMAOptimizer.init])
  refine ⟨h.1, ?_⟩
  rw [h.2]
  norm_num [EMAOptimizer.init, EMAOptimizer.step, EMAOptimizer.update_ema_parameters,
    emaUpdatePairs, applyDataPairs]

theorem getD_batch_affine (mean z : List (List ℚ)) (std : List ℚ) (i j : Nat)
    (hmi : i < mean.length) (hzi : i < z.length) (hsi : i < std.length)
    (hmj : j < (mean.getD i []).length) (hzj : j < (z.getD i []).length) :
    ((List.zipWith (fun p s => List.zipWith (fun m zv => m + s * zv) p.1 p.2)
        (mean.zip z) std).getD i []).getD j 0
      = (mean.getD i []).getD j 0 + (std.getD i 0) * ((z.getD i []).getD j 0) := by
  have hlz : i < (mean.zip z).length := by
    rw [List.length_zip]
    omega
  rw [getD_zipWith (fun p s => List.zipWith (fun m zv => m + s * zv) p.1 p.2)
    (mean.zip z) std i ([], []) 0 [] hlz hsi]
  simp only [getD_zip mean z i [] [] hmi hzi]
  simp only [getD_zipWith (fun m zv => m + (std.getD i 0) * zv) (mean.getD i [])
    (z.getD i []) j 0 0 0 hmj hzj]

theorem getD_batch_div (z : List (List ℚ)) (std : List ℚ) (i j : Nat)
    (hzi : i < z.length) (hsi : i < std.length) (hzj : j < (z.getD i []).length) :
    ((List.zipWith (fun zi s => zi.map (fun zv => zv / s)) z std).getD i []).getD j 0
      = ((z.getD i []).getD j 0) / (std.getD i 0) := by
  rw [getD_zipWith (fun zi s => zi.map (fun zv => zv / s)) z std i [] 0 [] hzi hsi]
  simp only [getD_map' (fun zv => zv / (std.getD i 0)) (z.getD i []) j 0 0 hzj]

/-- C3 counterexample: the supplied condition is not carried in the returned
timed sample — `forward_diffusion` returns `DiffusionData(x, t)`, whose
condition is `None`, even when a condition is passed. -/
theorem forward_diffusion_drops_condition :
    ((SDEManager.forward_diffusion (fun x _ => (x, List.replicate x.length 1)) 10
        [[(1 : ℚ)]] (some [(7 : ℚ)]) none [0] [[(2 : ℚ)]]).1).condition
      ≠ some [(7 : ℚ)] := by
  simp [SDEManager.forward_diffusion]

/-- C3 (amended): `forward_diffusion` uses the supplied `t` (else the uniform
draw), sets `x = mean + std * z` and `noise = z / std` from
`marginal_prob(x0, t)`, and returns the timed sample with condition `None`:
the supplied condition is dropped, not carried. -/
theorem forward_diffusion_formula
    (marginal_prob : List (List ℚ) → List Int → List (List ℚ) × List ℚ)
    (time_steps : Nat) (data : List (List ℚ)) (condition : Option (List ℚ))
    (t? : Option (List Int)) (randT : List Int) (z : List (List ℚ)) (i j : Nat)
    (hmi : i < (marginal_prob data (t?.getD randT)).1.length)
    (hzi : i < z.length)
    (hsi : i < (marginal_prob data (t?.getD randT)).2.length)
    (hmj : j < ((marginal_prob data (t?.getD randT)).1.getD i []).length)
    (hzj : j < (z.getD i []).length) :
    (SDEManager.forward_diffusion marginal_prob time_steps data condition t? randT z).1.t
        = t?.getD randT ∧
    (SDEManager.forward_diffusion marginal_prob time_steps data condition t? randT
        z).1.condition = none ∧
    (((SDEManager.forward_diffusion marginal_prob time_steps data condition t? randT
          z).1.x.getD i []).getD j 0
      = ((marginal_prob data (t?.getD randT)).1.getD i []).getD j 0
        + ((marginal_prob data (t?.getD randT)).2.getD i 0) * ((z.getD i []).getD j 0)) ∧
    (((SDEManager.forward_diffusion marginal_prob time_steps data condition t? randT
          z).2.getD i []).getD j 0
      = ((z.getD i []).getD j 0) / ((marginal_prob data (t?.getD randT)).2.getD i 0)) := by
  have hx : (SDEManager.forward_diffusion marginal_prob time_steps data condition t? randT
      z).1.x = List.zipWith (fun p s => List.zipWith (fun m zv => m + s * zv) p.1 p.2)
        ((marginal_prob data (t?.getD randT)).1.zip z)
        ((marginal_prob data (t?.getD randT)).2) := by
    cases t? <;> rfl
  have hn : (SDEManager.forward_diffusion marginal_prob time_steps data condition t? randT
      z).2 = List.zipWith (fun zi s => zi.map (fun zv => zv / s)) z
        ((marginal_prob data (t?.getD randT)).2) := by
    cases t? <;> rfl
  refine ⟨by cases t? <;> rfl, by cases t? <;> rfl, ?_, ?_⟩
  · rw [hx]
    exact getD_batch_affine _ z _ i j hmi hzi hsi hmj hzj
  · rw [hn]
    exact getD_batch_div z _ i j hzi hsi hzj

/-- C3 witness. -/
theorem forward_diffusion_formula_w :
    ((SDEManager.forward_diffusion (fun x _ => (x, [(2 : ℚ)])) 10 [[(1 : ℚ)]] none none
        [0] [[(3 : ℚ)]]).1.x.getD 0 []).getD 0 0 = 7 := by
  have h := forward_diffusion_formula (fun x _ => (x, [(2 : ℚ)])) 10 [[(1 : ℚ)]] none none
    [0] [[(3 : ℚ)]] 0 0 (by decide) (by decide) (by decide) (by decide) (by decide)
  rw [h.2.2.1]
  norm_num

theorem ratTrunc_intCast (m : Int) : ratTrunc (m : ℚ) = m := by
  unfold ratTrunc
  split <;> simp

theorem getD_batch_affine_list (mean z : List (List ℚ)) (std : List ℚ) (i : Nat)
    (hmi : i < mean.length) (hzi : i < z.length) (hsi : i < std.length) :
    (List.zipWith (fun p s => List.zipWith (fun m zv => m + s * zv) p.1 p.2)
        (mean.zip z) std).getD i []
      = List.zipWith (fun m zv => m + (std.getD i 0) * zv) (mean.getD i []) (z.getD i []) := by
  have hlz : i < (mean.zip z).length := by
    rw [List.length_zip]
    omega
  rw [getD_zipWith (fun p s => List.zipWith (fun m zv => m + s * zv) p.1 p.2)
    (mean.zip z) std i ([], []) 0 [] hlz hsi]
  simp only [getD_zip mean z i [] [] hmi hzi]

theorem ve_timestep_length (sde : VESDE) (data : DiffusionData (List ℚ)) :
    (SDEManager.ve_timestep sde data).length = data.t.length := by
  simp [SDEManager.ve_timestep]

theorem ve_sigma_length (sde : VESDE) (data : DiffusionData (List ℚ)) :
    (SDEManager.ve_sigma sde data).length = data.t.length := by
  simp [SDEManager.ve_sigma, SDEManager.ve_timestep]

theorem ve_adjacent_sigma_length (sde : VESDE) (data : DiffusionData (List ℚ)) :
    (SDEManager.ve_adjacent_sigma sde data).length = data.t.length := by
  simp [SDEManager.ve_adjacent_sigma, SDEManager.ve_timestep]

theorem ve_coef_length (sde : VESDE) (data : DiffusionData (List ℚ)) :
    (SDEManager.ve_coef sde data).length = data.t.length := by
  simp [SDEManager.ve_coef, List.length_zipWith, ve_sigma_length, ve_adjacent_sigma_length]

theorem ve_std_length (sde : VESDE) (data : DiffusionData (List ℚ)) (sqrtFn : ℚ → ℚ) :
    (SDEManager.ve_std sde data sqrtFn).length = data.t.length := by
  simp [SDEManager.ve_std, List.length_zipWith, ve_sigma_length, ve_adjacent_sigma_length]

theorem ve_x_mean_length (sde : VESDE) (score_of : DiffusionData (List ℚ) → List (List ℚ))
    (data : DiffusionData (List ℚ)) :
    (SDEManager.ve_x_mean sde score_of data).length
      = min (min data.x.length (score_of data).length) data.t.length := by
  simp [SDEManager.ve_x_mean, List.length_zipWith, List.length_zip, ve_coef_length]

theorem ve_timestep_getD (sde : VESDE) (data : DiffusionData (List ℚ)) (i : Nat)
    (hti : i < data.t.length) :
    (SDEManager.ve_timestep sde data).getD i 0 = sde.timestep_of (data.t.getD i 0) :=
  getD_map' sde.timestep_of data.t i 0 0 hti

theorem ve_sigma_getD (sde : VESDE) (data : DiffusionData (List ℚ)) (i : Nat)
    (hti : i < data.t.length) (h0 : 0 ≤ sde.timestep_of (data.t.getD i 0)) :
    (SDEManager.ve_sigma sde data).getD i 0
      = sde.sigma_at (sde.timestep_of (data.t.getD i 0)) := by
  unfold SDEManager.ve_sigma
  rw [getD_map' (fun k => torchIndex sde.discrete_sigmas k) (SDEManager.ve_timestep sde data)
    i 0 0 (by rw [ve_timestep_length]; omega), ve_timestep_getD sde data i hti]
  unfold torchIndex VESDE.sigma_at
  rw [if_neg (by omega)]

theorem ve_adjacent_sigma_getD (sde : VESDE) (data : DiffusionData (List ℚ)) (i : Nat)
    (hti : i < data.t.length) (h0 : 0 ≤ sde.timestep_of (data.t.getD i 0)) :
    (SDEManager.ve_adjacent_sigma sde data).getD i 0
      = sde.adjacent_sigma_at (sde.timestep_of (data.t.getD i 0)) := by
  unfold SDEManager.ve_adjacent_sigma
  rw [getD_map' (fun k => if k = 0 then 0 else torchIndex sde.discrete_sigmas (k - 1))
    (SDEManager.ve_timestep sde data) i 0 0 (by rw [ve_timestep_length]; omega),
    ve_timestep_getD sde data i hti]
  unfold torchIndex VESDE.adjacent_sigma_at
  by_cases hz : sde.timestep_of (data.t.getD i 0) = 0
  · rw [if_pos hz, if_pos hz]
  · rw [if_neg hz, if_neg hz, if_neg (by omega)]

theorem ve_coef_getD (sde : VESDE) (data : DiffusionData (List ℚ)) (i : Nat)
    (hti : i < data.t.length) (h0 : 0 ≤ sde.timestep_of (data.t.getD i 0)) :
    (SDEManager.ve_coef sde data).getD i 0
      = sde.sigma_at (sde.timestep_of (data.t.getD i 0)) ^ 2
        - sde.adjacent_sigma_at (sde.timestep_of (data.t.getD i 0)) ^ 2 := by
  unfold SDEManager.ve_coef
  rw [getD_zipWith (fun s a => s ^ 2 - a ^ 2) (SDEManager.ve_sigma sde data)
    (SDEManager.ve_adjacent_sigma sde data) i 0 0 0 (by rw [ve_sigma_length]; omega)
    (by rw [ve_adjacent_sigma_length]; omega),
    ve_sigma_getD sde data i hti h0, ve_adjacent_sigma_getD sde data i hti h0]

theorem ve_std_getD (sde : VESDE) (data : DiffusionData (List ℚ)) (sqrtFn : ℚ → ℚ)
    (i : Nat) (hti : i < data.t.length) (h0 : 0 ≤ sde.timestep_of (data.t.getD i 0)) :
    (SDEManager.ve_std sde data sqrtFn).getD i 0
      = sqrtFn ((sde.adjacent_sigma_at (sde.timestep_of (data.t.getD i 0)) ^ 2
          * (sde.sigma_at (sde.timestep_of (data.t.getD i 0)) ^ 2
             - sde.adjacent_sigma_at (sde.timestep_of (data.t.getD i 0)) ^ 2))
          / sde.sigma_at (sde.timestep_of (data.t.getD i 0)) ^ 2) := by
  unfold SDEManager.ve_std
  rw [getD_zipWith (fun a s => sqrtFn ((a ^ 2 * (s ^ 2 - a ^ 2)) / s ^ 2))
    (SDEManager.ve_adjacent_sigma sde data) (SDEManager.ve_sigma sde data) i 0 0 0
    (by rw [ve_adjacent_sigma_length]; omega) (by rw [ve_sigma_length]; omega),
    ve_sigma_getD sde data i hti h0, ve_adjacent_sigma_getD sde data i hti h0]

theorem ve_x_mean_getD_list (sde : VESDE)
    (score_of : DiffusionData (List ℚ) → List (List ℚ)) (data : DiffusionData (List ℚ))
    (i : Nat) (hxi : i < data.x.length) (hsi : i < (score_of data).length)
    (hti : i < data.t.length) :
    (SDEManager.ve_x_mean sde score_of data).getD i []
      = List.zipWith (fun xv sv => xv + sv * ((SDEManager.ve_coef sde data).getD i 0))
          (data.x.getD i []) ((score_of data).getD i []) := by
  unfold SDEManager.ve_x_mean
  have hlz : i < (data.x.zip (score_of data)).length := by
    rw [List.length_zip]
    omega
  rw [getD_zipWith (fun p c => List.zipWith (fun xv sv => xv + sv * c) p.1 p.2)
    (data.x.zip (score_of data)) (SDEManager.ve_coef sde data) i ([], []) 0 [] hlz
    (by rw [ve_coef_length]; omega)]
  simp only [getD_zip data.x (score_of data) i [] [] hxi hsi]

/-- C4: the VE sampling step follows the ancestral rule: the timestep equals
`round(t * (N-1) / T)` (the code's truncating `.long()` agrees with rounding
because `T = 1` and `t` is integral); `sigma = discrete_sigmas[timestep]`;
`adjacent_sigma` is exactly 0 at `timestep = 0` and `discrete_sigmas[timestep-1]`
otherwise; and each output entry is
`x + score*(sigma^2 - adjacent_sigma^2) + sqrt(adjacent_sigma^2*(sigma^2 -
adjacent_sigma^2)/sigma^2) * fresh_noise`. -/
theorem ve_sampling_step_ancestral (sde : VESDE)
    (score_of : DiffusionData (List ℚ) → List (List ℚ))
    (data : DiffusionData (List ℚ)) (fresh_noise : List (List ℚ)) (sqrtFn : ℚ → ℚ)
    (i j : Nat)
    (hti : i < data.t.length) (hxi : i < data.x.length)
    (hsi : i < (score_of data).length) (hfi : i < fresh_noise.length)
    (hxj : j < (data.x.getD i []).length)
    (hsj : j < ((score_of data).getD i []).length)
    (hfj : j < (fresh_noise.getD i []).length)
    (h0 : 0 ≤ sde.timestep_of (data.t.getD i 0))
    (hN : (sde.timestep_of (data.t.getD i 0)).toNat < sde.discrete_sigmas.length) :
    (∀ tj : Int, sde.timestep_of tj = round ((tj : ℚ) * ((sde.N : ℚ) - 1) / sde.T)) ∧
    ((SDEManager.sampling_step_ve sde score_of data fresh_noise sqrtFn).getD i []).getD j 0
      = ((data.x.getD i []).getD j 0
          + ((score_of data).getD i []).getD j 0
            * (sde.sigma_at (sde.timestep_of (data.t.getD i 0)) ^ 2
               - sde.adjacent_sigma_at (sde.timestep_of (data.t.getD i 0)) ^ 2))
        + sqrtFn ((sde.adjacent_sigma_at (sde.timestep_of (data.t.getD i 0)) ^ 2
            * (sde.sigma_at (sde.timestep_of (data.t.getD i 0)) ^ 2
               - sde.adjacent_sigma_at (sde.timestep_of (data.t.getD i 0)) ^ 2))
            / sde.sigma_at (sde.timestep_of (data.t.getD i 0)) ^ 2)
          * ((fresh_noise.getD i []).getD j 0) := by
  constructor
  · intro tj
    have hexp : (tj : ℚ) * ((sde.N : ℚ) - 1) / sde.T
        = ((tj * ((sde.N : Int) - 1) : Int) : ℚ) := by
      show (tj : ℚ) * ((sde.N : ℚ) - 1) / 1 = _
      push_cast
      ring
    rw [VESDE.timestep_of, hexp, ratTrunc_intCast, round_intCast]
  · unfold SDEManager.sampling_step_ve
    rw [getD_batch_affine_list (SDEManager.ve_x_mean sde score_of data) fresh_noise
      (SDEManager.ve_std sde data sqrtFn) i (by rw [ve_x_mean_length]; omega) hfi
      (by rw [ve_std_length]; omega)]
    rw [ve_x_mean_getD_list sde score_of data i hxi hsi hti]
    rw [getD_zipWith
      (fun mv nv => mv + ((SDEManager.ve_std sde data sqrtFn).getD i 0) * nv)
      (List.zipWith (fun xv sv => xv + sv * ((SDEManager.ve_coef sde data).getD i 0))
        (data.x.getD i []) ((score_of data).getD i []))
      (fresh_noise.getD i []) j 0 0 0 (by rw [List.length_zipWith]; omega) hfj]
    rw [getD_zipWith (fun xv sv => xv + sv * ((SDEManager.ve_coef sde data).getD i 0))
      (data.x.getD i []) ((score_of data).getD i []) j 0 0 0 hxj hsj]
    rw [ve_coef_getD sde data i hti h0, ve_std_getD sde data sqrtFn i hti h0]

/-- C4 witness. -/
theorem ve_sampling_step_ancestral_w :
    ((SDEManager.sampling_step_ve (VESDE.mk 1 10 3 [1, 2, 4]) (fun _ => [[(10 : ℚ)]])
        (DiffusionData.mk [[(5 : ℚ)]] [1] none) [[(100 : ℚ)]] (fun q => q)).getD 0
      []).getD 0 0 = 425 := by
  have hts : (VESDE.mk 1 10 3 [1, 2, 4]).timestep_of
      ((DiffusionData.mk [[(5 : ℚ)]] [1] none).t.getD 0 0) = 2 := by
    show ratTrunc (((1 : Int) : ℚ) * (((3 : Nat) : ℚ) - 1) / 1) = 2
    rw [show ((1 : Int) : ℚ) * (((3 : Nat) : ℚ) - 1) / 1 = ((2 : Int) : ℚ) by norm_num]
    exact ratTrunc_intCast 2
  have h := ve_sampling_step_ancestral (VESDE.mk 1 10 3 [1, 2, 4]) (fun _ => [[(10 : ℚ)]])
    (DiffusionData.mk [[(5 : ℚ)]] [1] none) [[(100 : ℚ)]] (fun q => q) 0 0
    (by decide) (by decide) (by decide) (by decide) (by decide) (by decide) (by decide)
    (by rw [hts]; decide) (by rw [hts]; decide)
  rw [h.2, hts]
  have hsig : (VESDE.mk 1 10 3 [1, 2, 4]).sigma_at 2 = 4 := rfl
  have hadj : (VESDE.mk 1 10 3 [1, 2, 4]).adjacent_sigma_at 2 = 2 := rfl
  rw [hsig, hadj]
  norm_num [List.getD_cons_zero]
